import Mathlib

/-!
Shallow embedding of the sampling core of the async-profiler repository:
the `ThreadFilter` concurrent membership set (src/threadFilter.cpp) and the
`WallClock` sampling controller (src/wallClock.cpp).  Machine integers are
modelled as `Nat` (the bitmap words are `u32`; every operation either keeps a
word below `2^32` or is insensitive to higher bits, as noted inline), and the
concurrent code is modelled by its sequential semantics (single-threaded
state passing), matching the source statement by statement.
-/

namespace AsyncProfiler

/-! ### ThreadFilter (threadFilter.cpp)

The constants and the `bitmap`/`word` index helpers live in threadFilter.h,
which is not part of the two source files; they are modelled from the spec:
a fixed-size table of at most `MAX_BITMAPS` chunk slots, each chunk of
`BITMAP_SIZE` bytes covering `BITMAP_CAPACITY` thread identifiers, the
identifier mapped to a (chunk, word, bit) triple by division/shift. -/

/-- Modelled from the spec: maximum number of chunk ownership slots
(`MAX_BITMAPS` in threadFilter.h, absent from src/). -/
def MAX_BITMAPS : Nat := 1024

/-- Modelled from the spec: size of one chunk in bytes (`BITMAP_SIZE` in
threadFilter.h, absent from src/). -/
def BITMAP_SIZE : Nat := 8192

/-- Modelled from the spec: thread identifiers covered by one chunk
(`BITMAP_CAPACITY` in threadFilter.h): 8 bits per byte. -/
def BITMAP_CAPACITY : Nat := 8 * BITMAP_SIZE

/-- Modelled from the spec: chunk index of a thread id
(`_bitmap[(u32)thread_id / BITMAP_CAPACITY]`). -/
def bitmapIndex (t : Nat) : Nat := t / BITMAP_CAPACITY

/-- Modelled from the spec: word index of a thread id inside its chunk
(`bitmap[((u32)thread_id % BITMAP_CAPACITY) >> 5]`). -/
def wordIndex (t : Nat) : Nat := (t % BITMAP_CAPACITY) >>> 5

/-- Bit mask of a thread id inside its 32-bit word: `1 << (thread_id & 0x1f)`
(threadFilter.cpp). -/
def bitMask (t : Nat) : Nat := 1 <<< (t &&& 31)

/-- State of a ThreadFilter: `_bitmap` is the table of chunk slots (a chunk is
a map from word index to 32-bit word value), `_enabled` the filtering flag. -/
structure ThreadFilter where
  bitmap : Nat → Option (Nat → Nat)
  enabled : Bool

/-- ThreadFilter constructor: `memset(_bitmap, 0, sizeof(_bitmap)); _enabled = false;`. -/
def ThreadFilter.new : ThreadFilter :=
  { bitmap := fun _ => none, enabled := false }

/-- ThreadFilter::init: `_enabled = filter != NULL;`. -/
def ThreadFilter.init (tf : ThreadFilter) (filter : Option String) : ThreadFilter :=
  { tf with enabled := filter.isSome }

/-- ThreadFilter::clear: zero the contents of every allocated chunk
(`memset(_bitmap[i], 0, BITMAP_SIZE)` for each non-NULL slot). -/
def ThreadFilter.clear (tf : ThreadFilter) : ThreadFilter :=
  { tf with bitmap := fun i =>
      match tf.bitmap i with
      | none => none
      | some _ => some (fun _ => 0) }

/-- ThreadFilter::accept: `b != NULL && (word(b, thread_id) & (1 << (thread_id & 0x1f)))`. -/
def ThreadFilter.accept (tf : ThreadFilter) (t : Nat) : Bool :=
  match tf.bitmap (bitmapIndex t) with
  | none => false
  | some b => b (wordIndex t) &&& bitMask t != 0

/-- ThreadFilter::add: lazily allocate the chunk (calloc zeroes it), then
`__sync_or_and_fetch(&word(b, thread_id), 1 << (thread_id & 0x1f))`.
The double-checked locking collapses to a single check in this sequential
semantics. -/
def ThreadFilter.add (tf : ThreadFilter) (t : Nat) : ThreadFilter :=
  { tf with bitmap := fun j =>
      if j = bitmapIndex t then
        some (fun w =>
          if w = wordIndex t then
            ((tf.bitmap (bitmapIndex t)).getD (fun _ => 0)) w ||| bitMask t
          else ((tf.bitmap (bitmapIndex t)).getD (fun _ => 0)) w)
      else tf.bitmap j }

/-- ThreadFilter::remove: no-op when the chunk is absent, otherwise
`__sync_and_and_fetch(&word(b, thread_id), ~(1 << (thread_id & 0x1f)))`;
the complement is taken on a `u32`, hence `0xffffffff ^^^ bitMask t`. -/
def ThreadFilter.remove (tf : ThreadFilter) (t : Nat) : ThreadFilter :=
  match tf.bitmap (bitmapIndex t) with
  | none => tf
  | some b =>
    { tf with bitmap := fun j =>
        if j = bitmapIndex t then
          some (fun w =>
            if w = wordIndex t then b w &&& (4294967295 ^^^ bitMask t) else b w)
        else tf.bitmap j }

/-- History of ThreadFilter mutations, for stating "never added since
construction or the last clear". -/
inductive FilterOp where
  | addOp (t : Nat)
  | removeOp (t : Nat)
  | clearOp
deriving DecidableEq

/-- Apply one mutation. -/
def ThreadFilter.applyOp (tf : ThreadFilter) : FilterOp → ThreadFilter
  | .addOp t => tf.add t
  | .removeOp t => tf.remove t
  | .clearOp => tf.clear

/-- Apply a sequence of mutations, first element first. -/
def ThreadFilter.applyOps (tf : ThreadFilter) : List FilterOp → ThreadFilter
  | [] => tf
  | op :: rest => (tf.applyOp op).applyOps rest

/-- Whether a clear occurs anywhere in the sequence. -/
def hasClearOp : List FilterOp → Bool
  | [] => false
  | .clearOp :: _ => true
  | _ :: rest => hasClearOp rest

/-- Whether `add t` is called at some point not followed (later in the
sequence) by a clear: i.e. t was added since the last clear. -/
def addedSince (t : Nat) : List FilterOp → Bool
  | [] => false
  | .addOp u :: rest => (u == t && !hasClearOp rest) || addedSince t rest
  | _ :: rest => addedSince t rest

/-! ### WallClock (wallClock.cpp) -/

/-- Maximum number of threads sampled in one iteration (wallClock.cpp). -/
def THREADS_PER_TICK : Nat := 8

/-- Signal used for CPU-running samples (SIGPROF on Linux). -/
def SIGPROF : Nat := 27

/-- Signal used for idle/wall samples (SIGVTALRM on Linux). -/
def SIGVTALRM : Nat := 26

/-- Signal used to stop the profiling thread (the I/O-ready signal, 29 on
Linux): `const int WAKEUP_SIGNAL = ...` in wallClock.cpp. -/
def WAKEUP_SIGNAL : Nat := 29

/-- Modelled from the spec: the fixed default interval used when the
configured interval is zero (`DEFAULT_INTERVAL` in wallClock.h, absent
from src/). -/
def DEFAULT_INTERVAL : Int := 10000000

/-- Modelled from the spec: the reserved event-name sentinel enabling
idle-thread sampling (`EVENT_WALL`, absent from src/). -/
def EVENT_WALL : String := "wall"

/-- Configuration as consumed by WallClock::start: `args._interval` (a C
`long`) and `args._event` (a string). -/
structure Arguments where
  interval : Int
  event : String
deriving DecidableEq

/-- Which handler was installed for a signal: the sampling handler
(`signalHandler`) or the dummy wakeup handler (`wakeupHandler`). -/
inductive SigHandler where
  | sample
  | wakeup
deriving DecidableEq

/-- Observable controller state touched by WallClock::start: the static
`_interval` and `_sample_idle_threads`, the installed handlers, the
`_running` flag, and whether `pthread_create` spawned the timer thread. -/
structure WallClockState where
  interval : Int
  sampleIdleThreads : Bool
  handlers : List (Nat × SigHandler)
  running : Bool
  threadSpawned : Bool
deriving DecidableEq

/-- WallClock::start, statement by statement; `createOk` is the outcome of
`pthread_create` (true iff it returned 0).  The result's first component is
the returned error message (`none` is `Error::OK`). -/
def WallClock.start (s : WallClockState) (args : Arguments) (createOk : Bool) :
    Option String × WallClockState :=
  if args.interval < 0 then
    (some "interval must be positive", s)
  else
    let s1 : WallClockState := { s with
      interval := if args.interval = 0 then DEFAULT_INTERVAL else args.interval,
      sampleIdleThreads := args.event == EVENT_WALL }
    let s2 : WallClockState := { s1 with
      handlers := s1.handlers ++
        [(SIGVTALRM, .sample), (SIGPROF, .sample), (WAKEUP_SIGNAL, .wakeup)] }
    let s3 : WallClockState := { s2 with running := true }
    if createOk then (none, { s3 with threadSpawned := true })
    else (some "Unable to create timer thread", s3)

/-- Thread run state as reported by OS::threadState (os.h). -/
inductive ThreadState where
  | THREAD_UNKNOWN
  | THREAD_RUNNING
  | THREAD_SLEEPING
deriving DecidableEq

/-- One signal-delivery attempt performed by the timer loop:
`OS::sendSignalToThread(tid, signo)` returned `delivered`. -/
structure SigEvent where
  tid : Int
  signo : Nat
  delivered : Bool
deriving DecidableEq

/-- Environment of WallClock::timerLoop: the values captured at loop entry
(`self`, the filter-enabled flag, the idle-sampling flag, the interval) and
the collaborator oracles (filter membership, thread state, signal-delivery
success). -/
structure LoopEnv where
  self : Int
  threadFilterEnabled : Bool
  acceptF : Int → Bool
  sampleIdleThreadsSnap : Bool
  threadStateF : Int → ThreadState
  sendSignalOk : Int → Nat → Bool

/-- The inner `for (int count = 0; count < THREADS_PER_TICK; )` loop of
WallClock::timerLoop.  The thread list is the sequence of ids `next()` will
yield before returning -1 (so `[]` means `next()` returns the -1 sentinel).
Returns the enumerator retained for the next tick (`none` when it was
deleted on exhaustion) together with the trace of signal-delivery attempts
in order. -/
def tick (env : LoopEnv) : Nat → List Int → Option (List Int) × List SigEvent
  | count, [] =>
    if count < THREADS_PER_TICK then (none, []) else (some [], [])
  | count, tid :: rest =>
    if count < THREADS_PER_TICK then
      if tid == env.self || (env.threadFilterEnabled && !env.acceptF tid) then
        tick env count rest
      else
        match env.threadStateF tid with
        | .THREAD_RUNNING =>
          let ok := env.sendSignalOk tid SIGPROF
          let r := tick env (if ok then count + 1 else count) rest
          (r.1, ⟨tid, SIGPROF, ok⟩ :: r.2)
        | .THREAD_SLEEPING =>
          if env.sampleIdleThreadsSnap then
            let ok := env.sendSignalOk tid SIGVTALRM
            let r := tick env (if ok then count + 1 else count) rest
            (r.1, ⟨tid, SIGVTALRM, ok⟩ :: r.2)
          else tick env count rest
        | .THREAD_UNKNOWN => tick env count rest
    else (some (tid :: rest), [])

/-- One iteration of the outer `while (_running)` loop: whether a fresh
enumeration was acquired, the tick's delivery attempts, the enumerator
retained after the tick, and the `nanosleep` timeout used (tv_sec, tv_nsec). -/
structure LoopStep where
  freshList : Bool
  events : List SigEvent
  retained : Option (List Int)
  sleepSec : Int
  sleepNsec : Int
deriving DecidableEq

/-- The outer loop of WallClock::timerLoop.  `interval` is the static
`_interval` read for the timeout (start guarantees it is nonnegative, where
C and Lean division agree); `enums k` is the list produced by the k-th call
to `OS::listThreads()`; `fuel` is the number of iterations for which the
`_running` check succeeds; `k`/`tl` thread the enumeration counter and the
retained thread list. -/
def timerLoop (env : LoopEnv) (interval : Int) (enums : Nat → List Int) :
    Nat → Nat → Option (List Int) → List LoopStep
  | 0, _, _ => []
  | fuel + 1, k, tl =>
    let acquired := tl.isNone
    let l0 := match tl with
      | none => enums k
      | some l => l
    let k2 := if acquired then k + 1 else k
    let r := tick env 0 l0
    { freshList := acquired, events := r.2, retained := r.1,
      sleepSec := interval / 1000000000,
      sleepNsec := interval % 1000000000 }
      :: timerLoop env interval enums fuel k2 r.1

/-- All signal-delivery attempts of a run, in order. -/
def loopEvents (steps : List LoopStep) : List SigEvent :=
  (steps.map LoopStep.events).flatten

end AsyncProfiler

set_option maxRecDepth 8192

namespace AsyncProfiler

lemma and31_eq_mod (t : Nat) : t &&& 31 = t % 32 := by
  have h32 : (32 : Nat) = 2 ^ 5 := rfl
  have h31 : (31 : Nat) = 2 ^ 5 - 1 := rfl
  rw [h32, h31]
  apply Nat.eq_of_testBit_eq
  intro i
  rw [Nat.testBit_and, Nat.testBit_two_pow_sub_one, Nat.testBit_mod_two_pow, Bool.and_comm]

lemma bitMask_eq_pow (t : Nat) : bitMask t = 2 ^ (t &&& 31) := by
  unfold bitMask
  rw [Nat.shiftLeft_eq, one_mul]

lemma and_bitMask_ne (x t : Nat) : ((x &&& bitMask t) != 0) = x.testBit (t &&& 31) := by
  rw [bitMask_eq_pow]
  cases h : x.testBit (t &&& 31) <;>
    simp [Nat.and_two_pow, h, (Nat.two_pow_pos (t &&& 31)).ne']

lemma and31_lt (t : Nat) : t &&& 31 < 32 := by
  rw [and31_eq_mod]
  exact Nat.mod_lt t (by decide)

lemma triple_inj {t u : Nat} (h1 : bitmapIndex t = bitmapIndex u)
    (h2 : wordIndex t = wordIndex u) (h3 : t &&& 31 = u &&& 31) : t = u := by
  unfold bitmapIndex at h1
  unfold wordIndex at h2
  rw [and31_eq_mod, and31_eq_mod] at h3
  rw [Nat.shiftRight_eq_div_pow, Nat.shiftRight_eq_div_pow] at h2
  have hc : BITMAP_CAPACITY = 65536 := rfl
  rw [hc] at h1 h2
  norm_num at h2
  omega

lemma accept_def_some {tf : ThreadFilter} {t : Nat} {b : Nat → Nat}
    (h : tf.bitmap (bitmapIndex t) = some b) :
    tf.accept t = (b (wordIndex t)).testBit (t &&& 31) := by
  unfold ThreadFilter.accept
  rw [h]
  exact and_bitMask_ne _ t

lemma accept_def_none {tf : ThreadFilter} {t : Nat}
    (h : tf.bitmap (bitmapIndex t) = none) : tf.accept t = false := by
  unfold ThreadFilter.accept
  rw [h]

lemma add_bitmap_self (tf : ThreadFilter) (t : Nat) :
    (tf.add t).bitmap (bitmapIndex t) = some (fun w =>
      if w = wordIndex t then
        ((tf.bitmap (bitmapIndex t)).getD (fun _ => 0)) w ||| bitMask t
      else ((tf.bitmap (bitmapIndex t)).getD (fun _ => 0)) w) := by
  unfold ThreadFilter.add
  exact if_pos rfl

lemma add_bitmap_other (tf : ThreadFilter) (t : Nat) {j : Nat} (hj : j ≠ bitmapIndex t) :
    (tf.add t).bitmap j = tf.bitmap j := by
  unfold ThreadFilter.add
  exact if_neg hj

lemma remove_bitmap_some {tf : ThreadFilter} {t : Nat} {b : Nat → Nat}
    (hb : tf.bitmap (bitmapIndex t) = some b) :
    (tf.remove t).bitmap (bitmapIndex t) = some (fun w =>
      if w = wordIndex t then b w &&& (4294967295 ^^^ bitMask t) else b w) := by
  unfold ThreadFilter.remove
  rw [hb]
  exact if_pos rfl

lemma remove_bitmap_other {tf : ThreadFilter} {t : Nat} {j : Nat} (hj : j ≠ bitmapIndex t) :
    (tf.remove t).bitmap j = tf.bitmap j := by
  unfold ThreadFilter.remove
  cases hb : tf.bitmap (bitmapIndex t) with
  | none => rfl
  | some b => exact if_neg hj

lemma accept_add_self (tf : ThreadFilter) (t : Nat) : (tf.add t).accept t = true := by
  rw [accept_def_some (add_bitmap_self tf t)]
  simp [bitMask_eq_pow, Nat.testBit_or, Nat.testBit_two_pow_self]

lemma accept_remove_self (tf : ThreadFilter) (t : Nat) : (tf.remove t).accept t = false := by
  cases hb : tf.bitmap (bitmapIndex t) with
  | none =>
    have hr : tf.remove t = tf := by
      unfold ThreadFilter.remove
      rw [hb]
    rw [hr]
    exact accept_def_none hb
  | some b =>
    rw [accept_def_some (remove_bitmap_some hb)]
    have h32 : (4294967295 : Nat) = 2 ^ 32 - 1 := rfl
    have hlt : decide (t &&& 31 < 32) = true := decide_eq_true (and31_lt t)
    simp only [eq_self_iff_true, if_true]
    rw [h32, bitMask_eq_pow, Nat.testBit_and, Nat.testBit_xor,
      Nat.testBit_two_pow_sub_one, Nat.testBit_two_pow_self, hlt]
    simp


lemma accept_congr {tf1 tf2 : ThreadFilter} {u : Nat}
    (h : tf1.bitmap (bitmapIndex u) = tf2.bitmap (bitmapIndex u)) :
    tf1.accept u = tf2.accept u := by
  unfold ThreadFilter.accept
  rw [h]

lemma accept_add_ne {t u : Nat} (tf : ThreadFilter) (h : t ≠ u) :
    (tf.add t).accept u = tf.accept u := by
  by_cases hi : bitmapIndex u = bitmapIndex t
  · have hslot : (tf.add t).bitmap (bitmapIndex u) = some (fun w =>
        if w = wordIndex t then
          ((tf.bitmap (bitmapIndex t)).getD (fun _ => 0)) w ||| bitMask t
        else ((tf.bitmap (bitmapIndex t)).getD (fun _ => 0)) w) := by
      rw [hi]
      exact add_bitmap_self tf t
    have hbit : ∀ _ : wordIndex u = wordIndex t, u &&& 31 ≠ t &&& 31 :=
      fun hw hb => h (triple_inj hi hw hb).symm
    cases hb : tf.bitmap (bitmapIndex t) with
    | none =>
      have hbu : tf.bitmap (bitmapIndex u) = none := by rw [hi]; exact hb
      rw [accept_def_some hslot, accept_def_none hbu, hb]
      simp only [Option.getD_none]
      by_cases hw : wordIndex u = wordIndex t
      · rw [if_pos hw, bitMask_eq_pow]
        simp [Nat.testBit_or, Nat.zero_testBit,
          Nat.testBit_two_pow_of_ne (Ne.symm (hbit hw))]
      · rw [if_neg hw]
        simp [Nat.zero_testBit]
    | some b =>
      have hbu : tf.bitmap (bitmapIndex u) = some b := by rw [hi]; exact hb
      rw [accept_def_some hslot, accept_def_some hbu, hb]
      simp only [Option.getD_some]
      by_cases hw : wordIndex u = wordIndex t
      · rw [if_pos hw, bitMask_eq_pow]
        simp [Nat.testBit_or, Nat.testBit_two_pow_of_ne (Ne.symm (hbit hw))]
      · rw [if_neg hw]
  · exact accept_congr (add_bitmap_other tf t hi)

lemma accept_remove_ne {t u : Nat} (tf : ThreadFilter) (h : t ≠ u) :
    (tf.remove t).accept u = tf.accept u := by
  cases hb : tf.bitmap (bitmapIndex t) with
  | none =>
    have hr : tf.remove t = tf := by
      unfold ThreadFilter.remove
      rw [hb]
    rw [hr]
  | some b =>
    by_cases hi : bitmapIndex u = bitmapIndex t
    · have hslot : (tf.remove t).bitmap (bitmapIndex u) = some (fun w =>
          if w = wordIndex t then b w &&& (4294967295 ^^^ bitMask t) else b w) := by
        rw [hi]
        exact remove_bitmap_some hb
      have hbu : tf.bitmap (bitmapIndex u) = some b := by rw [hi]; exact hb
      rw [accept_def_some hslot, accept_def_some hbu]
      by_cases hw : wordIndex u = wordIndex t
      · have hbit : u &&& 31 ≠ t &&& 31 := fun hb2 => h (triple_inj hi hw hb2).symm
        have hlt : decide (u &&& 31 < 32) = true := decide_eq_true (and31_lt u)
        have h32 : (4294967295 : Nat) = 2 ^ 32 - 1 := rfl
        rw [if_pos hw, h32, bitMask_eq_pow, Nat.testBit_and, Nat.testBit_xor,
          Nat.testBit_two_pow_sub_one, Nat.testBit_two_pow_of_ne (Ne.symm hbit), hlt]
        simp
      · rw [if_neg hw]
    · exact accept_congr (remove_bitmap_other hi)

lemma accept_clear (tf : ThreadFilter) (t : Nat) : tf.clear.accept t = false := by
  cases hb : tf.bitmap (bitmapIndex t) with
  | none =>
    have hn : tf.clear.bitmap (bitmapIndex t) = none := by
      unfold ThreadFilter.clear
      simp only []
      rw [hb]
    exact accept_def_none hn
  | some b =>
    have hs : tf.clear.bitmap (bitmapIndex t) = some (fun _ => 0) := by
      unfold ThreadFilter.clear
      simp only []
      rw [hb]
    rw [accept_def_some hs]
    simp [Nat.zero_testBit]

lemma accept_new (t : Nat) : ThreadFilter.new.accept t = false := rfl

lemma clear_bitmap_isSome (tf : ThreadFilter) (i : Nat) :
    (tf.clear.bitmap i).isSome = (tf.bitmap i).isSome := by
  cases hb : tf.bitmap i with
  | none =>
    unfold ThreadFilter.clear
    simp only []
    rw [hb]
  | some b =>
    unfold ThreadFilter.clear
    simp only []
    rw [hb]
    rfl

lemma clear_bitmap_zero {tf : ThreadFilter} {i : Nat} (h : (tf.bitmap i).isSome = true) :
    tf.clear.bitmap i = some (fun _ => 0) := by
  cases hb : tf.bitmap i with
  | none => rw [hb] at h; cases h
  | some b =>
    unfold ThreadFilter.clear
    simp only []
    rw [hb]

lemma threadFilter_ext {a b : ThreadFilter} (h1 : a.bitmap = b.bitmap)
    (h2 : a.enabled = b.enabled) : a = b := by
  cases a
  cases b
  cases h1
  cases h2
  rfl

lemma add_add_self (tf : ThreadFilter) (t : Nat) : (tf.add t).add t = tf.add t := by
  apply threadFilter_ext
  · funext j
    by_cases hj : j = bitmapIndex t
    · subst hj
      rw [add_bitmap_self (tf.add t) t, add_bitmap_self tf t]
      congr 1
      funext w
      by_cases hw : w = wordIndex t
      · subst hw
        simp [Nat.or_assoc, Nat.or_self]
      · simp [hw]
    · exact add_bitmap_other (tf.add t) t hj
  · rfl

lemma accept_applyOps_false (t : Nat) :
    ∀ (ops : List FilterOp) (tf : ThreadFilter),
      addedSince t ops = false →
      (tf.accept t = false ∨ hasClearOp ops = true) →
      (tf.applyOps ops).accept t = false := by
  intro ops
  induction ops with
  | nil =>
    intro tf _ hd
    cases hd with
    | inl h => exact h
    | inr h => cases h
  | cons op rest ih =>
    intro tf hsince hd
    cases op with
    | addOp u =>
      have hsince1 : ((u == t) && !hasClearOp rest) = false ∧ addedSince t rest = false := by
        simp only [addedSince, Bool.or_eq_false_iff] at hsince
        exact hsince
      show ((tf.add u).applyOps rest).accept t = false
      rcases Bool.and_eq_false_iff.mp hsince1.1 with hu | hc
      · have hut : u ≠ t := by simpa using hu
        apply ih (tf.add u) hsince1.2
        cases hd with
        | inl h2 => exact Or.inl (by rw [accept_add_ne tf hut]; exact h2)
        | inr h2 => exact Or.inr (by simpa [hasClearOp] using h2)
      · have hcl : hasClearOp rest = true := by simpa using hc
        exact ih (tf.add u) hsince1.2 (Or.inr hcl)
    | removeOp u =>
      have hsince1 : addedSince t rest = false := by
        simpa [addedSince] using hsince
      show ((tf.remove u).applyOps rest).accept t = false
      apply ih (tf.remove u) hsince1
      cases hd with
      | inl h2 =>
        left
        by_cases hu : u = t
        · subst hu
          exact accept_remove_self tf u
        · rw [accept_remove_ne tf hu]
          exact h2
      | inr h2 => exact Or.inr (by simpa [hasClearOp] using h2)
    | clearOp =>
      have hsince1 : addedSince t rest = false := by
        simpa [addedSince] using hsince
      show (tf.clear.applyOps rest).accept t = false
      exact ih tf.clear hsince1 (Or.inl (accept_clear tf t))


/-- C1: ThreadFilter membership round trip: for every thread identifier in the
addressable range, add makes accept true, a subsequent remove makes accept
false, and accept is false for any identifier never added since construction
or since the last clear. -/
theorem threadFilter_membership_roundtrip (tf : ThreadFilter) (t : Nat)
    (ht : t < MAX_BITMAPS * BITMAP_CAPACITY) :
    (tf.add t).accept t = true
    ∧ ((tf.add t).remove t).accept t = false
    ∧ (∀ ops : List FilterOp, addedSince t ops = false →
        (ThreadFilter.new.applyOps ops).accept t = false) :=
  ⟨accept_add_self tf t, accept_remove_self (tf.add t) t,
   fun ops hops => accept_applyOps_false t ops ThreadFilter.new hops (Or.inl (accept_new t))⟩

/-- C1 witness at thread id 3. -/
theorem threadFilter_membership_roundtrip_witness :
    (ThreadFilter.new.add 3).accept 3 = true :=
  (threadFilter_membership_roundtrip ThreadFilter.new 3 (by decide)).1

/-- C2: clear zeroes the contents of every allocated chunk, makes accept false
everywhere, leaves the enabled flag unchanged and keeps every chunk
allocation in place. -/
theorem threadFilter_clear_spec (tf : ThreadFilter) :
    (∀ t, tf.clear.accept t = false)
    ∧ tf.clear.enabled = tf.enabled
    ∧ (∀ i, (tf.bitmap i).isSome = true → tf.clear.bitmap i = some (fun _ => 0))
    ∧ (∀ i, (tf.clear.bitmap i).isSome = (tf.bitmap i).isSome) :=
  ⟨accept_clear tf, rfl, fun _ h => clear_bitmap_zero h, clear_bitmap_isSome tf⟩

/-- C2 witness: clearing a filter holding thread id 3 zeroes chunk 0 while
keeping it allocated. -/
theorem threadFilter_clear_spec_witness :
    (ThreadFilter.new.add 3).clear.bitmap 0 = some (fun _ => 0) :=
  (threadFilter_clear_spec (ThreadFilter.new.add 3)).2.2.1 0 (by decide)

/-- C10: add and remove on one in-range identifier do not disturb accept on a
distinct in-range identifier, and add is idempotent on the whole state. -/
theorem threadFilter_frame_and_idempotence (tf : ThreadFilter) (t u : Nat)
    (ht : t < MAX_BITMAPS * BITMAP_CAPACITY) (hu : u < MAX_BITMAPS * BITMAP_CAPACITY)
    (hne : t ≠ u) :
    (tf.add t).accept u = tf.accept u
    ∧ (tf.remove t).accept u = tf.accept u
    ∧ (tf.add t).add t = tf.add t :=
  ⟨accept_add_ne tf hne, accept_remove_ne tf hne, add_add_self tf t⟩

/-- C10 witness: ids 3 and 35 share chunk 0 and word 0 but have distinct bits. -/
theorem threadFilter_frame_and_idempotence_witness :
    ((ThreadFilter.new.add 35).add 3).accept 35 = (ThreadFilter.new.add 35).accept 35 :=
  (threadFilter_frame_and_idempotence (ThreadFilter.new.add 35) 3 35 (by decide)
    (by decide) (by decide)).1


/-- Everything the timer loop guarantees about one recorded delivery attempt:
the target passed the self check and the filter check, and the signal matches
the observed run state. -/
def eventOk (env : LoopEnv) (e : SigEvent) : Prop :=
  (e.tid == env.self) = false
  ∧ (env.threadFilterEnabled && !env.acceptF e.tid) = false
  ∧ ((env.threadStateF e.tid = .THREAD_RUNNING ∧ e.signo = SIGPROF
      ∧ e.delivered = env.sendSignalOk e.tid SIGPROF)
    ∨ (env.threadStateF e.tid = .THREAD_SLEEPING ∧ env.sampleIdleThreadsSnap = true
      ∧ e.signo = SIGVTALRM ∧ e.delivered = env.sendSignalOk e.tid SIGVTALRM))

lemma tick_mem (env : LoopEnv) :
    ∀ (l : List Int) (count : Nat) (e : SigEvent),
      e ∈ (tick env count l).2 → eventOk env e := by
  intro l
  induction l with
  | nil =>
    intro count e he
    simp only [tick] at he
    by_cases hc : count < THREADS_PER_TICK <;> simp [hc] at he
  | cons tid rest ih =>
    intro count e he
    simp only [tick] at he
    by_cases hc : count < THREADS_PER_TICK
    · rw [if_pos hc] at he
      cases hskip : (tid == env.self || (env.threadFilterEnabled && !env.acceptF tid)) with
      | true =>
        rw [if_pos hskip] at he
        exact ih count e he
      | false =>
        rw [if_neg (by simp [hskip])] at he
        have hpass := Bool.or_eq_false_iff.mp hskip
        cases hst : env.threadStateF tid with
        | THREAD_UNKNOWN =>
          simp only [hst] at he
          exact ih count e he
        | THREAD_RUNNING =>
          simp only [hst, List.mem_cons] at he
          rcases he with rfl | he2
          · exact ⟨hpass.1, hpass.2, Or.inl ⟨hst, rfl, rfl⟩⟩
          · exact ih _ e he2
        | THREAD_SLEEPING =>
          cases hidle : env.sampleIdleThreadsSnap with
          | true =>
            simp only [hst, hidle, if_pos, List.mem_cons] at he
            rcases he with rfl | he2
            · exact ⟨hpass.1, hpass.2, Or.inr ⟨hst, hidle, rfl, rfl⟩⟩
            · exact ih _ e he2
          | false =>
            simp only [hst, hidle, Bool.false_eq_true, if_false] at he
            exact ih count e he
    · rw [if_neg hc] at he
      simp at he


lemma tick_countP (env : LoopEnv) :
    ∀ (l : List Int) (count : Nat), count ≤ THREADS_PER_TICK →
      ((tick env count l).2.countP (fun e => e.delivered)) + count ≤ THREADS_PER_TICK := by
  intro l
  induction l with
  | nil =>
    intro count hcle
    simp only [tick]
    by_cases hc : count < THREADS_PER_TICK <;> simp [hc, hcle]
  | cons tid rest ih =>
    intro count hcle
    simp only [tick]
    by_cases hc : count < THREADS_PER_TICK
    · rw [if_pos hc]
      cases hskip : (tid == env.self || (env.threadFilterEnabled && !env.acceptF tid)) with
      | true =>
        rw [if_pos rfl]
        exact ih count hcle
      | false =>
        rw [if_neg (by simp)]
        cases hst : env.threadStateF tid with
        | THREAD_UNKNOWN =>
          simp only [hst]
          exact ih count hcle
        | THREAD_RUNNING =>
          simp only [hst]
          cases hok : env.sendSignalOk tid SIGPROF with
          | true =>
            have h1 := ih (count + 1) (by omega)
            simp [hok, List.countP_cons]
            omega
          | false =>
            have h1 := ih count hcle
            simp [hok, List.countP_cons]
            omega
        | THREAD_SLEEPING =>
          simp only [hst]
          cases hidle : env.sampleIdleThreadsSnap with
          | true =>
            cases hok : env.sendSignalOk tid SIGVTALRM with
            | true =>
              have h1 := ih (count + 1) (by omega)
              simp [hidle, hok, List.countP_cons]
              omega
            | false =>
              have h1 := ih count hcle
              simp [hidle, hok, List.countP_cons]
              omega
          | false =>
            simp [hidle]
            exact ih count hcle
    · rw [if_neg hc]
      simpa using hcle

lemma tick_retained_suffix (env : LoopEnv) :
    ∀ (l : List Int) (count : Nat) (l2 : List Int),
      (tick env count l).1 = some l2 → l2.IsSuffix l := by
  intro l
  induction l with
  | nil =>
    intro count l2 h
    simp only [tick] at h
    by_cases hc : count < THREADS_PER_TICK
    · rw [if_pos hc] at h
      cases h
    · rw [if_neg hc] at h
      have h2 : some ([] : List Int) = some l2 := h
      cases h2
      exact List.suffix_refl _
  | cons tid rest ih =>
    intro count l2 h
    simp only [tick] at h
    by_cases hc : count < THREADS_PER_TICK
    · rw [if_pos hc] at h
      have hsfx : ∀ l3 : List Int, l3.IsSuffix rest → l3.IsSuffix (tid :: rest) :=
        fun l3 h3 => h3.trans (List.suffix_cons tid rest)
      cases hskip : (tid == env.self || (env.threadFilterEnabled && !env.acceptF tid)) with
      | true =>
        rw [if_pos hskip] at h
        exact hsfx l2 (ih count l2 h)
      | false =>
        rw [if_neg (by simp [hskip])] at h
        cases hst : env.threadStateF tid with
        | THREAD_UNKNOWN =>
          simp only [hst] at h
          exact hsfx l2 (ih count l2 h)
        | THREAD_RUNNING =>
          simp only [hst] at h
          exact hsfx l2
            (ih (if env.sendSignalOk tid SIGPROF then count + 1 else count) l2 h)
        | THREAD_SLEEPING =>
          cases hidle : env.sampleIdleThreadsSnap with
          | true =>
            simp only [hst, hidle, if_pos] at h
            exact hsfx l2
              (ih (if env.sendSignalOk tid SIGVTALRM then count + 1 else count) l2 h)
          | false =>
            simp only [hst, hidle, Bool.false_eq_true, if_false] at h
            exact hsfx l2 (ih count l2 h)
    · rw [if_neg hc] at h
      have h2 : some (tid :: rest) = some l2 := h
      cases h2
      exact List.suffix_refl _

lemma timerLoop_mem (env : LoopEnv) (interval : Int) (enums : Nat → List Int) :
    ∀ (fuel k : Nat) (tl : Option (List Int)) (e : SigEvent),
      e ∈ loopEvents (timerLoop env interval enums fuel k tl) → eventOk env e := by
  intro fuel
  induction fuel with
  | zero =>
    intro k tl e he
    simp [timerLoop, loopEvents] at he
  | succ n ih =>
    intro k tl e he
    cases tl with
    | none =>
      simp only [timerLoop, loopEvents, List.map_cons, List.flatten_cons,
        List.mem_append] at he
      rcases he with he1 | he2
      · exact tick_mem env (enums k) 0 e he1
      · exact ih _ _ e he2
    | some l0 =>
      simp only [timerLoop, loopEvents, List.map_cons, List.flatten_cons,
        List.mem_append] at he
      rcases he with he1 | he2
      · exact tick_mem env l0 0 e he1
      · exact ih _ _ e he2

lemma timerLoop_sleep (env : LoopEnv) (interval : Int) (enums : Nat → List Int) :
    ∀ (fuel k : Nat) (tl : Option (List Int)) (st : LoopStep),
      st ∈ timerLoop env interval enums fuel k tl →
      st.sleepSec = interval / 1000000000 ∧ st.sleepNsec = interval % 1000000000 := by
  intro fuel
  induction fuel with
  | zero =>
    intro k tl st h
    simp [timerLoop] at h
  | succ n ih =>
    intro k tl st h
    simp only [timerLoop, List.mem_cons] at h
    rcases h with rfl | h2
    · exact ⟨rfl, rfl⟩
    · exact ih _ _ st h2

lemma timerLoop_head_fresh (env : LoopEnv) (interval : Int) (enums : Nat → List Int) :
    ∀ (fuel k : Nat) (st : LoopStep),
      (timerLoop env interval enums fuel k none)[0]? = some st → st.freshList = true := by
  intro fuel
  cases fuel with
  | zero =>
    intro k st h
    simp [timerLoop] at h
  | succ n =>
    intro k st h
    simp only [timerLoop, List.getElem?_cons_zero] at h
    cases h
    rfl

lemma timerLoop_fresh_after_none (env : LoopEnv) (interval : Int) (enums : Nat → List Int) :
    ∀ (fuel k : Nat) (tl : Option (List Int)) (i : Nat) (st st2 : LoopStep),
      (timerLoop env interval enums fuel k tl)[i]? = some st →
      (timerLoop env interval enums fuel k tl)[i + 1]? = some st2 →
      st.retained = none → st2.freshList = true := by
  intro fuel
  induction fuel with
  | zero =>
    intro k tl i st st2 h1 h2 hret
    simp [timerLoop] at h1
  | succ n ih =>
    intro k tl i st st2 h1 h2 hret
    cases i with
    | zero =>
      simp only [timerLoop, List.getElem?_cons_zero, List.getElem?_cons_succ] at h1 h2
      cases h1
      simp only [] at hret
      rw [hret] at h2
      exact timerLoop_head_fresh env interval enums n _ st2 h2
    | succ j =>
      simp only [timerLoop, List.getElem?_cons_succ] at h1 h2
      exact ih _ _ j st st2 h1 h2 hret


/-- C3: start rejects a negative interval with the exact error message and no
state change; for a nonnegative interval that error is never returned and the
effective interval is the configured value, or the fixed default when zero. -/
theorem wallClock_start_interval_validation (s : WallClockState) (args : Arguments)
    (createOk : Bool) :
    (args.interval < 0 →
      WallClock.start s args createOk = (some "interval must be positive", s))
    ∧ (0 ≤ args.interval →
      (WallClock.start s args createOk).1 ≠ some "interval must be positive"
      ∧ (WallClock.start s args createOk).2.interval
          = (if args.interval = 0 then DEFAULT_INTERVAL else args.interval)) := by
  constructor
  · intro h
    simp [WallClock.start, h]
  · intro h
    have hneg : ¬ args.interval < 0 := by omega
    constructor
    · cases createOk <;> simp [WallClock.start, hneg] <;> decide
    · cases createOk <;> simp [WallClock.start, hneg]

/-- C3 witness: a negative interval is rejected without touching the state. -/
theorem wallClock_start_interval_validation_witness :
    WallClock.start ⟨0, false, [], false, false⟩ ⟨-1, "cpu"⟩ true
      = (some "interval must be positive", ⟨0, false, [], false, false⟩) :=
  (wallClock_start_interval_validation ⟨0, false, [], false, false⟩ ⟨-1, "cpu"⟩ true).1
    (by decide)

/-- C4: start enables idle sampling exactly when the event name is the wall
sentinel, and with idle sampling disabled the loop never records a delivery
attempt against a thread observed SLEEPING. -/
theorem wallClock_idle_sampling_by_event_name :
    (∀ (s : WallClockState) (args : Arguments) (createOk : Bool), 0 ≤ args.interval →
      (WallClock.start s args createOk).2.sampleIdleThreads = (args.event == EVENT_WALL))
    ∧ (∀ (env : LoopEnv) (interval : Int) (enums : Nat → List Int) (fuel k : Nat)
        (tl : Option (List Int)) (e : SigEvent),
        env.sampleIdleThreadsSnap = false →
        e ∈ loopEvents (timerLoop env interval enums fuel k tl) →
        env.threadStateF e.tid ≠ ThreadState.THREAD_SLEEPING) := by
  constructor
  · intro s args createOk h
    have hneg : ¬ args.interval < 0 := by omega
    cases createOk <;> simp [WallClock.start, hneg]
  · intro env interval enums fuel k tl e hidle he hsleep
    rcases (timerLoop_mem env interval enums fuel k tl e he).2.2 with
      ⟨h1, _, _⟩ | ⟨_, h2, _, _⟩
    · rw [hsleep] at h1
      exact ThreadState.noConfusion h1
    · rw [hidle] at h2
      exact Bool.noConfusion h2

/-- Environment with idle sampling disabled, for the C4 witness. -/
def envIdleOff : LoopEnv :=
  { self := 0, threadFilterEnabled := false, acceptF := fun _ => true,
    sampleIdleThreadsSnap := false, threadStateF := fun _ => .THREAD_RUNNING,
    sendSignalOk := fun _ _ => true }

/-- C4 witness: a thread signalled in an idle-off run was not SLEEPING. -/
theorem wallClock_idle_sampling_by_event_name_witness :
    envIdleOff.threadStateF (7 : Int) ≠ ThreadState.THREAD_SLEEPING :=
  wallClock_idle_sampling_by_event_name.2 envIdleOff 5 (fun _ => [7]) 1 0 none
    ⟨7, SIGPROF, true⟩ rfl (by decide)

/-- Exact behaviour of the inner loop once the budget is reached: the `for`
condition `count < THREADS_PER_TICK` fails before `next()` is called, so the
tick ends with the whole remaining enumerator retained and no attempt made. -/
lemma tick_at_budget (env : LoopEnv) (count : Nat) (l : List Int)
    (hc : ¬ count < THREADS_PER_TICK) : tick env count l = (some l, []) := by
  cases l <;> simp [tick, hc]

/-- C5: within one tick at most THREADS_PER_TICK delivery attempts succeed, a
failed delivery is skipped without consuming budget, a retained enumerator is
a suffix of the tick's input, and once the budget is reached the tick stops
with the entire unvisited remainder retained for later ticks (nothing is
discarded and no further attempt is made). -/
theorem timerLoop_per_tick_throttle (env : LoopEnv) (l : List Int) :
    ((tick env 0 l).2.countP (fun e => e.delivered)) ≤ THREADS_PER_TICK
    ∧ (∀ l2 : List Int, (tick env 0 l).1 = some l2 → l2.IsSuffix l)
    ∧ (∀ (count : Nat) (tid : Int) (rest : List Int),
        count < THREADS_PER_TICK →
        (tid == env.self) = false →
        (env.threadFilterEnabled && !env.acceptF tid) = false →
        env.threadStateF tid = ThreadState.THREAD_RUNNING →
        env.sendSignalOk tid SIGPROF = false →
        tick env count (tid :: rest)
          = ((tick env count rest).1, ⟨tid, SIGPROF, false⟩ :: (tick env count rest).2))
    ∧ (∀ (count : Nat) (rest : List Int), THREADS_PER_TICK ≤ count →
        tick env count rest = (some rest, [])) := by
  refine ⟨?_, fun l2 => tick_retained_suffix env l 0 l2, ?_, ?_⟩
  · have h := tick_countP env l 0 (Nat.zero_le _)
    omega
  · intro count tid rest hc hself hfil hst hok
    simp [tick, hc, hself, hfil, hst, hok]
  · intro count rest hc
    exact tick_at_budget env count rest (by omega)

/-- Environment in which every delivery fails, for the C5 witness. -/
def envDeliverFail : LoopEnv :=
  { self := 0, threadFilterEnabled := false, acceptF := fun _ => true,
    sampleIdleThreadsSnap := false, threadStateF := fun _ => .THREAD_RUNNING,
    sendSignalOk := fun _ _ => false }

/-- C5 witness: a failed delivery is recorded but not counted, and at budget
the unvisited remainder [6, 7] is retained in full with no attempt made. -/
theorem timerLoop_per_tick_throttle_witness :
    (tick envDeliverFail 0 [5]
      = ((tick envDeliverFail 0 []).1,
         ⟨5, SIGPROF, false⟩ :: (tick envDeliverFail 0 []).2))
    ∧ tick envDeliverFail 8 [6, 7] = (some [6, 7], []) :=
  ⟨(timerLoop_per_tick_throttle envDeliverFail [5]).2.2.1 0 5 [] (by decide) (by decide)
    (by decide) rfl rfl,
   (timerLoop_per_tick_throttle envDeliverFail [5]).2.2.2 8 [6, 7] (by decide)⟩

/-- C6: no recorded delivery attempt ever targets the controller thread, and
with filtering enabled every target passes the filter; hence with the filter
holding only T, only T is ever signalled. -/
theorem timerLoop_exclusion (env : LoopEnv) (interval : Int) (enums : Nat → List Int)
    (fuel k : Nat) (tl : Option (List Int)) (T : Int) (e : SigEvent)
    (he : e ∈ loopEvents (timerLoop env interval enums fuel k tl)) :
    e.tid ≠ env.self
    ∧ (env.threadFilterEnabled = true → env.acceptF e.tid = true)
    ∧ (env.threadFilterEnabled = true → env.acceptF = (fun t => t == T) → e.tid = T) := by
  obtain ⟨h1, h2, _⟩ := timerLoop_mem env interval enums fuel k tl e he
  have hne : e.tid ≠ env.self := by simpa using h1
  have hacc : env.threadFilterEnabled = true → env.acceptF e.tid = true := by
    intro hen
    rw [hen] at h2
    simpa using h2
  refine ⟨hne, hacc, fun hen hfun => ?_⟩
  have h3 := hacc hen
  rw [hfun] at h3
  simpa using h3

/-- Environment with an enabled filter holding only thread 5, for C6. -/
def envFilterT : LoopEnv :=
  { self := 0, threadFilterEnabled := true, acceptF := fun t => t == 5,
    sampleIdleThreadsSnap := false, threadStateF := fun _ => .THREAD_RUNNING,
    sendSignalOk := fun _ _ => true }

/-- C6 witness: the event recorded in a filtered run targets thread 5 only. -/
theorem timerLoop_exclusion_witness :
    (⟨5, SIGPROF, true⟩ : SigEvent).tid ≠ envFilterT.self
    ∧ (envFilterT.threadFilterEnabled = true →
        envFilterT.acceptF (⟨5, SIGPROF, true⟩ : SigEvent).tid = true)
    ∧ (envFilterT.threadFilterEnabled = true →
        envFilterT.acceptF = (fun t => t == 5) →
        (⟨5, SIGPROF, true⟩ : SigEvent).tid = 5) :=
  timerLoop_exclusion envFilterT 5 (fun _ => [3, 5, 0]) 1 0 none 5 ⟨5, SIGPROF, true⟩
    (by decide)

/-- C7: hitting the end sentinel under budget discards the enumerator and ends
the tick with no further attempts; a discarded enumerator forces a fresh
acquisition on the next tick; and every tick is followed by a sleep of the
full configured interval. -/
theorem timerLoop_enumerator_lifecycle (env : LoopEnv) (interval : Int)
    (enums : Nat → List Int) :
    (∀ count : Nat, count < THREADS_PER_TICK → tick env count [] = (none, []))
    ∧ (∀ (fuel k : Nat) (tl : Option (List Int)) (i : Nat) (st st2 : LoopStep),
        (timerLoop env interval enums fuel k tl)[i]? = some st →
        (timerLoop env interval enums fuel k tl)[i + 1]? = some st2 →
        st.retained = none → st2.freshList = true)
    ∧ (∀ (fuel k : Nat) (tl : Option (List Int)) (st : LoopStep),
        st ∈ timerLoop env interval enums fuel k tl →
        st.sleepSec = interval / 1000000000 ∧ st.sleepNsec = interval % 1000000000
        ∧ (0 ≤ interval → st.sleepSec * 1000000000 + st.sleepNsec = interval)) := by
  refine ⟨?_, timerLoop_fresh_after_none env interval enums, ?_⟩
  · intro count hc
    simp [tick, hc]
  · intro fuel k tl st hst
    obtain ⟨h1, h2⟩ := timerLoop_sleep env interval enums fuel k tl st hst
    refine ⟨h1, h2, fun _ => ?_⟩
    rw [h1, h2, mul_comm]
    exact Int.ediv_add_emod interval 1000000000

/-- Environment for the C7 witness. -/
def envLifecycle : LoopEnv :=
  { self := 0, threadFilterEnabled := false, acceptF := fun _ => true,
    sampleIdleThreadsSnap := false, threadStateF := fun _ => .THREAD_RUNNING,
    sendSignalOk := fun _ _ => true }

/-- C7 witness: the sentinel under budget discards the enumerator at once. -/
theorem timerLoop_enumerator_lifecycle_witness :
    tick envLifecycle 0 [] = (none, []) :=
  (timerLoop_enumerator_lifecycle envLifecycle 7 (fun _ => [])).1 0 (by decide)

/-- C8: a candidate passing the self and filter checks is routed by run state:
RUNNING gets a SIGPROF attempt counted on success, SLEEPING with idle
sampling on gets a SIGVTALRM attempt counted on success, and SLEEPING with
idle sampling off or UNKNOWN is skipped without an attempt or budget use. -/
theorem tick_signal_routing (env : LoopEnv) (count : Nat) (tid : Int) (rest : List Int)
    (hc : count < THREADS_PER_TICK)
    (hself : (tid == env.self) = false)
    (hfil : (env.threadFilterEnabled && !env.acceptF tid) = false) :
    (env.threadStateF tid = ThreadState.THREAD_RUNNING →
      tick env count (tid :: rest)
        = ((tick env (if env.sendSignalOk tid SIGPROF then count + 1 else count) rest).1,
           ⟨tid, SIGPROF, env.sendSignalOk tid SIGPROF⟩ ::
             (tick env (if env.sendSignalOk tid SIGPROF then count + 1 else count) rest).2))
    ∧ (env.threadStateF tid = ThreadState.THREAD_SLEEPING →
        env.sampleIdleThreadsSnap = true →
      tick env count (tid :: rest)
        = ((tick env (if env.sendSignalOk tid SIGVTALRM then count + 1 else count) rest).1,
           ⟨tid, SIGVTALRM, env.sendSignalOk tid SIGVTALRM⟩ ::
             (tick env (if env.sendSignalOk tid SIGVTALRM then count + 1 else count) rest).2))
    ∧ (env.threadStateF tid = ThreadState.THREAD_SLEEPING →
        env.sampleIdleThreadsSnap = false →
      tick env count (tid :: rest) = tick env count rest)
    ∧ (env.threadStateF tid = ThreadState.THREAD_UNKNOWN →
      tick env count (tid :: rest) = tick env count rest) := by
  refine ⟨fun hst => ?_, fun hst hidle => ?_, fun hst hidle => ?_, fun hst => ?_⟩
  · simp [tick, hc, hself, hfil, hst]
  · simp [tick, hc, hself, hfil, hst, hidle]
  · simp [tick, hc, hself, hfil, hst, hidle]
  · simp [tick, hc, hself, hfil, hst]

/-- Environment of sleeping threads with idle sampling on, for C8. -/
def envRouting : LoopEnv :=
  { self := 0, threadFilterEnabled := false, acceptF := fun _ => true,
    sampleIdleThreadsSnap := true, threadStateF := fun _ => .THREAD_SLEEPING,
    sendSignalOk := fun _ _ => true }

/-- C8 witness: a sleeping thread with idle sampling on gets SIGVTALRM. -/
theorem tick_signal_routing_witness :
    tick envRouting 0 [9]
      = ((tick envRouting 1 []).1, ⟨9, SIGVTALRM, true⟩ :: (tick envRouting 1 []).2) :=
  (tick_signal_routing envRouting 0 9 [] (by decide) (by decide) (by decide)).2.1 rfl rfl

/-- C9: when thread creation fails, start reports the exact error but leaves
the running flag set and the three handlers installed (start is not atomic on
this path), and no thread was spawned. -/
theorem wallClock_start_thread_creation_failure (s : WallClockState) (args : Arguments)
    (h : 0 ≤ args.interval) :
    (WallClock.start s args false).1 = some "Unable to create timer thread"
    ∧ (WallClock.start s args false).2.running = true
    ∧ (WallClock.start s args false).2.handlers
        = s.handlers ++ [(SIGVTALRM, .sample), (SIGPROF, .sample), (WAKEUP_SIGNAL, .wakeup)]
    ∧ (WallClock.start s args false).2.threadSpawned = s.threadSpawned := by
  have hneg : ¬ args.interval < 0 := by omega
  refine ⟨?_, ?_, ?_, ?_⟩ <;> simp [WallClock.start, hneg]

/-- C9 witness: failing thread creation yields the timer-thread error. -/
theorem wallClock_start_thread_creation_failure_witness :
    (WallClock.start ⟨0, false, [], false, false⟩ ⟨0, "cpu"⟩ false).1
      = some "Unable to create timer thread" :=
  (wallClock_start_thread_creation_failure ⟨0, false, [], false, false⟩ ⟨0, "cpu"⟩
    (by decide)).1

end AsyncProfiler
